import Mathlib

/-!
Verification of the ZK-battleship core against its specification.

The definitions below are a shallow embedding of the Rust sources:
* `core/src/lib.rs` — the board model (`Position`, `Ship`, `GameState`,
  `apply_shot`, `check`, ...);
* `methods/guest/src/main.rs` — the guest proof program;
* `host/src/proofs.rs` — the receipt verifiers (modelled over the list of
  `RoundCommit`s extracted from a receipt; the cryptographic receipt check
  itself is outside the embedding);
* `host/src/game.rs` and `host/src/game_coordinator.rs` — the networked
  game-loop message handlers (modelled as pure state-transition functions);
* `host/src/network.rs` — the envelope receive path (HMAC modelled as an
  abstract keyed function parameter).

Machine integers: coordinates are Rust `u32` and masks `u8`; all arithmetic
performed by the embedded code paths (guarded subtraction, small shifts and
bit-ors below bit 8) coincides with `Nat` arithmetic, so `Nat` is used
throughout.  SHA-256 digests are compared only for equality by the embedded
code, so digests are `Nat` and the hash `GameState → Nat` is an explicit
parameter wherever the source calls `GameState::commit`.
-/

namespace Battleship

/-- Board dimension, `BOARD_SIZE` in `core/src/lib.rs`. -/
def BOARD_SIZE : Nat := 10

inductive Direction where
  | Horizontal
  | Vertical
deriving DecidableEq

/-- `Position` from `core/src/lib.rs` (`x`, `y` are `u32`). -/
structure Position where
  x : Nat
  y : Nat
deriving DecidableEq

/-- `Position::step`. -/
def Position.step (p : Position) (dir : Direction) (dist : Nat) : Position :=
  match dir with
  | Direction.Vertical => ⟨p.x, p.y + dist⟩
  | Direction.Horizontal => ⟨p.x + dist, p.y⟩

/-- `Position::in_bounds`. -/
def Position.in_bounds (p : Position) : Bool :=
  decide (p.x < BOARD_SIZE) && decide (p.y < BOARD_SIZE)

inductive ShipType where
  | Carrier
  | Battleship
  | Cruiser
  | Submarine
  | Destroyer
deriving DecidableEq

/-- `ShipType::size`. -/
def ShipType.size : ShipType → Nat
  | ShipType.Carrier => 5
  | ShipType.Battleship => 4
  | ShipType.Cruiser => 3
  | ShipType.Submarine => 3
  | ShipType.Destroyer => 2

/-- `Ship` from `core/src/lib.rs`; `hits` is the `u8` hit bitmask. -/
structure Ship where
  ship_type : ShipType
  position : Position
  direction : Direction
  hits : Nat
deriving DecidableEq

/-- `Ship::is_sunk`. -/
def Ship.is_sunk (s : Ship) : Bool :=
  let size := s.ship_type.size
  let mask := if size ≥ 8 then 255 else (1 <<< size) - 1
  (s.hits &&& mask) == mask

/-- `Ship::check_hit`: returns the Rust boolean result together with the
(possibly) updated ship, making the `&mut self` mutation explicit. -/
def Ship.check_hit (s : Ship) (shot : Position) : Bool × Ship :=
  match s.direction with
  | Direction.Horizontal =>
    if shot.y ≠ s.position.y ∨ shot.x < s.position.x then (false, s)
    else
      let offset := shot.x - s.position.x
      if offset < s.ship_type.size then
        (true, { s with hits := s.hits ||| (1 <<< offset) })
      else (false, s)
  | Direction.Vertical =>
    if shot.x ≠ s.position.x ∨ shot.y < s.position.y then (false, s)
    else
      let offset := shot.y - s.position.y
      if offset < s.ship_type.size then
        (true, { s with hits := s.hits ||| (1 <<< offset) })
      else (false, s)

/-- `Ship::get_coordinates`. -/
def Ship.get_coordinates (s : Ship) : List Position :=
  (List.range s.ship_type.size).map (fun off => s.position.step s.direction off)

inductive CellState where
  | Empty
  | Miss
  | Hit
deriving DecidableEq

inductive HitType where
  | Miss
  | Hit
  | Sunk (t : ShipType)
deriving DecidableEq

/-- Digests (`risc0_zkvm::sha::Digest`) are only ever compared for equality
by the embedded code, so they are modelled as `Nat`. -/
abbrev Digest := Nat

/-- `RoundCommit` from `core/src/lib.rs`. -/
structure RoundCommit where
  old_state : Digest
  new_state : Digest
  shot : Position
  hit : HitType
deriving DecidableEq

/-- Read cell `grid[y][x]` (Rust indexes the fixed `10×10` array; all the
embedded accesses are guarded by `in_bounds`, so the out-of-range default
never matters for a well-shaped grid). -/
def gridGet (g : List (List CellState)) (x y : Nat) : CellState :=
  (g.getD y []).getD x CellState.Empty

/-- Write cell `grid[y][x] := c`. -/
def gridSet (g : List (List CellState)) (x y : Nat) (c : CellState) :
    List (List CellState) :=
  g.set y ((g.getD y []).set x c)

/-- The all-`Empty` `10×10` grid. -/
def emptyGrid : List (List CellState) :=
  List.replicate BOARD_SIZE (List.replicate BOARD_SIZE CellState.Empty)

/-- `GameState` from `core/src/lib.rs` (`pepper` is the 16-byte array). -/
structure GameState where
  ships : List Ship
  pepper : List Nat
  grid : List (List CellState)
deriving DecidableEq

/-- `GameState::new`. -/
def GameState.new (pepper : List Nat) : GameState :=
  { ships := [], pepper := pepper, grid := emptyGrid }

/-- The `for ship in &mut self.ships` loop of `GameState::apply_shot`:
finds the first ship whose `check_hit` fires, replaces it by its updated
copy and reports `Sunk`/`Hit`; `none` when no ship is hit. -/
def scanShips : List Ship → Position → Option (List Ship × HitType)
  | [], _ => none
  | sh :: rest, shot =>
    if (sh.check_hit shot).1 then
      let sh' := (sh.check_hit shot).2
      some (sh' :: rest,
        if sh'.is_sunk then HitType.Sunk sh'.ship_type else HitType.Hit)
    else
      match scanShips rest shot with
      | some (rest', r) => some (sh :: rest', r)
      | none => none

/-- `GameState::apply_shot`, with the `&mut self` mutation made explicit:
the second component is the state after the call (`self` unchanged on the
two early `None` returns). -/
def GameState.apply_shot (s : GameState) (shot : Position) :
    Option HitType × GameState :=
  if shot.in_bounds then
    if gridGet s.grid shot.x shot.y = CellState.Empty then
      match scanShips s.ships shot with
      | some (ships', r) =>
        (some r, { s with ships := ships',
                          grid := gridSet s.grid shot.x shot.y CellState.Hit })
      | none =>
        (some HitType.Miss,
          { s with grid := gridSet s.grid shot.x shot.y CellState.Miss })
    else (none, s)
  else (none, s)

/-- The pairwise part of `GameState::check`: for each ship in turn, its
coordinates are in bounds and no later ship repeats its type or overlaps
its coordinates. -/
def checkShips : List Ship → Bool
  | [] => true
  | sh :: rest =>
    let coords := sh.get_coordinates
    if coords.any (fun p => !p.in_bounds) then false
    else if rest.any (fun s2 => s2.ship_type == sh.ship_type) then false
    else if rest.any (fun s2 => coords.any (fun c => s2.get_coordinates.contains c))
      then false
    else checkShips rest

/-- `GameState::check`. -/
def GameState.check (s : GameState) : Bool :=
  checkShips s.ships &&
    [ShipType.Carrier, ShipType.Battleship, ShipType.Cruiser,
     ShipType.Submarine, ShipType.Destroyer].all
      (fun t => s.ships.any (fun sh => sh.ship_type == t))

/-! ## Guest proof program (`methods/guest/src/main.rs`)

The guest reads `(initial, shots)`, aborts (`panic!` in Rust, `none` here)
unless `initial.check()` holds, commits the initial digest and then one
`RoundCommit` per shot.  `hash` stands for `GameState::commit`. -/

/-- One iteration of the guest's `for shot in input.shots` loop. -/
def guestStep (hash : GameState → Digest) (st : GameState) (shot : Position) :
    RoundCommit × GameState :=
  let old := hash st
  let r := st.apply_shot shot
  ({ old_state := old, new_state := hash r.2, shot := shot,
     hit := r.1.getD HitType.Miss }, r.2)

/-- The commits the guest writes to the journal, in shot order. -/
def guestRounds (hash : GameState → Digest) :
    GameState → List Position → List RoundCommit
  | _, [] => []
  | st, shot :: rest =>
    let r := guestStep hash st shot
    r.1 :: guestRounds hash r.2 rest

/-- The whole guest `main`: `none` models the abort on a failed `check`,
otherwise the journal contents `(initial digest, round commits)`. -/
def guest_main (hash : GameState → Digest) (initial : GameState)
    (shots : List Position) : Option (Digest × List RoundCommit) :=
  if initial.check then some (hash initial, guestRounds hash initial shots)
  else none

/-- State reached after replaying a list of shots through `apply_shot`
(used to phrase the per-round digests of the guest journal). -/
def runShots : GameState → List Position → GameState
  | st, [] => st
  | st, shot :: rest => runShots (st.apply_shot shot).2 rest

/-! ## Receipt verifiers (`host/src/proofs.rs`)

Both verifiers first verify the receipt cryptographically and extract the
journal's `RoundCommit` list; the embedding starts from that extracted
list.  The `expected_match`/`expected_seq` binding blocks reference
`match_id`/`seq` fields that `core::RoundCommit` does not define; every
caller in the tree passes no binding (three-argument call sites), so the
embedding models the unbound path. -/

/-- `verify_remote_round_proof` (lines 93–124): the post-extraction checks
performed on the commit list.  `hash server_state` is
`server_state.commit()`. -/
def verify_remote_round_proof (hash : GameState → Digest)
    (server_state : GameState) (commits : List RoundCommit) (shot : Position) :
    Except String (List RoundCommit) :=
  match commits with
  | [] => Except.error "no round commits found in receipt"
  | c0 :: _ =>
    if c0.old_state ≠ hash server_state then
      Except.error "mismatched base state in provided proof"
    else if !(commits.any (fun c => c.shot == shot)) then
      Except.error "receipt does not contain a commit for the requested shot"
    else Except.ok commits

/-- `verify_shot_result_for_shooter` (lines 142–185): locate the first
commit for `shot`, then require its `old_state` to equal the expected
digest.  The audit-log persistence step is I/O and omitted. -/
def verify_shot_result_for_shooter (commits : List RoundCommit)
    (expected_old : Digest) (shot : Position) : Except String RoundCommit :=
  match commits with
  | [] => Except.error "no round commits found in receipt"
  | _ :: _ =>
    match commits.find? (fun c => c.shot == shot) with
    | none => Except.error "no matching RoundCommit found for shot or match_id/seq"
    | some c =>
      if c.old_state ≠ expected_old then
        Except.error "commit.old_state does not match expected old digest"
      else Except.ok c

/-! ## Networked game-loop handlers

`GameCoordinator::play_game` exists twice: the consolidated module
`host/src/game.rs` and the legacy `host/src/game_coordinator.rs`.  The
per-message handling is modelled as pure transition functions on the
coordinator fields the handlers touch; stdin/stdout and the socket are
dropped.  `none` models a Rust `unwrap` panic on an empty commit list. -/

/-- `GameMessage` from `host/src/network_protocol.rs`; `ProofData` is
carried as the commit list extracted from its receipt. -/
inductive GameMessage where
  | BoardReady (commitment : Digest) (player_name : String)
  | TakeShot (position : Position)
  | ShotResult (position : Position) (hit_type : HitType)
      (proof : List RoundCommit)
  | GameOver (winner : String)
  | Error (message : String)
deriving DecidableEq

/-- The mutable coordinator fields the game-loop handlers touch
(`local_state`, `opponent_commit`, `opponent_view`, the `local_turn`
flag of `play_game`). -/
structure CoordState where
  local_state : GameState
  opponent_commit : Option Digest
  opponent_view : GameState
  local_turn : Bool
deriving DecidableEq

/-- `host/src/game.rs` lines 249–293: the shooter's handling of an
incoming `ShotResult` after its `TakeShot`.  It takes the LAST extracted
commit, adopts `opponent_commit := rc.new_state`, marks the
`opponent_view` grid, and sets the turn (`Hit` keeps it). -/
def shooterHandleShotResult (st : CoordState) (position : Position)
    (commits : List RoundCommit) : Option CoordState :=
  match commits.getLast? with
  | none => none
  | some rc =>
    let cell := match rc.hit with
      | HitType.Miss => CellState.Miss
      | _ => CellState.Hit
    some { st with
      opponent_commit := some rc.new_state,
      opponent_view := { st.opponent_view with
        grid := gridSet st.opponent_view.grid position.x position.y cell },
      local_turn := match rc.hit with
        | HitType.Hit => true
        | _ => false }

/-- `host/src/game.rs` lines 299–334: the defender's handling of
`TakeShot`.  `prove` is the outcome of `produce_and_verify_proof` followed
by `extract_round_commits` (`none` = prover unavailable).  On prover
failure the defender sends `Error` and continues with all its state
unchanged; on success it applies the shot to `local_state`, replies
`ShotResult` and sets the turn (`Hit` keeps it remote). -/
def defenderHandleTakeShot (st : CoordState) (position : Position)
    (prove : Option (List RoundCommit)) : Option (CoordState × GameMessage) :=
  match prove with
  | none => some (st, GameMessage.Error "prover unavailable")
  | some commits =>
    match commits.getLast? with
    | none => none
    | some rc =>
      some ({ st with
        local_state := (st.local_state.apply_shot position).2,
        local_turn := match rc.hit with
          | HitType.Hit => false
          | _ => true },
        GameMessage.ShotResult position rc.hit commits)

/-- `host/src/game_coordinator.rs` lines 68–89 (legacy loop): the shooter's
handling of an incoming `ShotResult` applies the shot to its own
`local_state` and never records `opponent_commit`. -/
def legacyShooterHandleShotResult (st : CoordState) (position : Position)
    (commits : List RoundCommit) : Option CoordState :=
  match commits.getLast? with
  | none => none
  | some rc =>
    some { st with
      local_state := (st.local_state.apply_shot position).2,
      local_turn := match rc.hit with
        | HitType.Hit => false
        | _ => true }

/-- `host/src/game_coordinator.rs` lines 94–127 (legacy loop): the
defender's handling of `TakeShot`.  On prover failure it sends `Error` and
then `bail!`s, terminating `play_game`; `Except.error` models that
session-fatal propagation. -/
def legacyDefenderHandleTakeShot (st : CoordState) (position : Position)
    (prove : Option (List RoundCommit)) :
    Except String (CoordState × GameMessage) :=
  match prove with
  | none => Except.error "prover unavailable"
  | some commits =>
    match commits.getLast? with
    | none => Except.error "unwrap on empty commits"
    | some rc =>
      Except.ok ({ st with
        local_state := (st.local_state.apply_shot position).2,
        local_turn := match rc.hit with
          | HitType.Hit => false
          | _ => true },
        GameMessage.ShotResult position rc.hit commits)

/-! ## Envelope receive path (`host/src/network.rs`)

`receive_enveloped` is modelled as a pure function of the connection state
and the parsed incoming envelope.  The keyed HMAC-SHA256 over the JSON
serialization (with `auth_token` cleared) is an abstract parameter
`hmac : secret → envelope → token`. -/

/-- `Envelope` from `host/src/network_protocol.rs`; the UUID match id and
the base64 token are `Nat` (only equality is used). -/
structure Envelope where
  match_id : Nat
  seq : Nat
  payload : GameMessage
  auth_token : Option Nat
deriving DecidableEq

/-- The `NetworkConnection` fields used by `receive_enveloped`
(`match_id`, `expected_seq`, `match_secret`). -/
structure ConnState where
  match_id : Option Nat
  expected_seq : Nat
  match_secret : Option Nat
deriving DecidableEq

/-- `u64` modulus for `wrapping_add`. -/
def U64 : Nat := 2 ^ 64

/-- The match-id / sequence checks of `receive_enveloped` (after the HMAC
gate): adopt the first `match_id` seen, then require equality, then
require `seq == expected_seq` and advance `expected_seq` by a wrapping
increment. -/
def receiveChecks (c : ConnState) (env : Envelope) :
    Except String (ConnState × Envelope) :=
  let c1 := match c.match_id with
    | none => { c with match_id := some env.match_id }
    | some _ => c
  if (match c1.match_id with
      | some id => decide (env.match_id ≠ id)
      | none => false) then
    Except.error "mismatched match_id"
  else if env.seq ≠ c1.expected_seq then
    Except.error "unexpected sequence number"
  else
    Except.ok ({ c1 with expected_seq := (c1.expected_seq + 1) % U64 }, env)

/-- `NetworkConnection::receive_enveloped` (lines 239–280), given the
already-deserialized envelope: when a `match_secret` is held, accept only
if `auth_token` equals the HMAC of the envelope with `auth_token`
cleared, then run the match/sequence checks. -/
def receive_enveloped (hmac : Nat → Envelope → Nat) (c : ConnState)
    (env : Envelope) : Except String (ConnState × Envelope) :=
  match c.match_secret with
  | some secret =>
    if env.auth_token = some (hmac secret { env with auth_token := none }) then
      receiveChecks c env
    else Except.error "auth token missing or invalid"
  | none => receiveChecks c env

/-! ## Concrete instances (used by witnesses and counterexamples) -/

/-- The all-zero 16-byte pepper. -/
def pepper0 : List Nat := List.replicate 16 0

/-- A fresh empty board. -/
def state0 : GameState := GameState.new pepper0

/-- The well-formed five-ship placement from the core test suite. -/
def validState : GameState :=
  { ships :=
      [ { ship_type := ShipType.Carrier, position := ⟨2, 3⟩,
          direction := Direction.Vertical, hits := 0 },
        { ship_type := ShipType.Battleship, position := ⟨3, 1⟩,
          direction := Direction.Horizontal, hits := 0 },
        { ship_type := ShipType.Cruiser, position := ⟨4, 7⟩,
          direction := Direction.Vertical, hits := 0 },
        { ship_type := ShipType.Submarine, position := ⟨7, 5⟩,
          direction := Direction.Horizontal, hits := 0 },
        { ship_type := ShipType.Destroyer, position := ⟨7, 7⟩,
          direction := Direction.Horizontal, hits := 0 } ],
    pepper := pepper0, grid := emptyGrid }

/-- A concrete stand-in for the digest function (digests are abstract). -/
def hash0 : GameState → Digest := fun _ => 0

def p11 : Position := ⟨1, 1⟩

def p22 : Position := ⟨2, 2⟩

def pBig : Position := ⟨20, 20⟩

/-- A lone destroyer at the origin. -/
def destroyer0 : Ship :=
  { ship_type := ShipType.Destroyer, position := ⟨0, 0⟩,
    direction := Direction.Horizontal, hits := 0 }

/-- A board holding only `destroyer0`. -/
def destroyerState : GameState :=
  { ships := [destroyer0], pepper := pepper0, grid := emptyGrid }

def rcA : RoundCommit :=
  { old_state := 0, new_state := 1, shot := p11, hit := HitType.Miss }

def rcB : RoundCommit :=
  { old_state := 7, new_state := 9, shot := p22, hit := HitType.Hit }

def rcGood : RoundCommit :=
  { old_state := 5, new_state := 6, shot := p11, hit := HitType.Hit }

def rcMiss : RoundCommit :=
  { old_state := 0, new_state := 0, shot := p11, hit := HitType.Miss }

def rcBadOld : RoundCommit :=
  { old_state := 7, new_state := 9, shot := p11, hit := HitType.Miss }

def coord0 : CoordState :=
  { local_state := state0, opponent_commit := none,
    opponent_view := state0, local_turn := true }

/-- `coord0` after the `game.rs` shooter processes `ShotResult` for
`rcMiss` at `p11`. -/
def coord0After : CoordState :=
  { local_state := state0, opponent_commit := some 0,
    opponent_view := { state0 with grid := gridSet state0.grid 1 1 CellState.Miss },
    local_turn := false }

/-- `coord0` after the `game.rs` shooter processes `ShotResult` for
`rcGood` at `p11`. -/
def coord0AfterHit : CoordState :=
  { local_state := state0, opponent_commit := some 6,
    opponent_view := { state0 with grid := gridSet state0.grid 1 1 CellState.Hit },
    local_turn := true }

def coordC2 : CoordState :=
  { local_state := state0, opponent_commit := some 5,
    opponent_view := state0, local_turn := true }

/-- `coordC2` after the `game.rs` shooter processes `ShotResult` for
`rcBadOld` at `p11`. -/
def coordC2After : CoordState :=
  { local_state := state0, opponent_commit := some 9,
    opponent_view := { state0 with grid := gridSet state0.grid 1 1 CellState.Miss },
    local_turn := false }

/-- `coord0` after the legacy (`game_coordinator.rs`) shooter processes
`ShotResult` for `rcMiss` at `p11`: its own `local_state` has been shot. -/
def coord0Legacy : CoordState :=
  { local_state := (state0.apply_shot p11).2, opponent_commit := none,
    opponent_view := state0, local_turn := true }

/-- A concrete stand-in for the keyed HMAC (only equality matters). -/
def hmacC : Nat → Envelope → Nat := fun k e => k + e.seq + e.match_id

def conn8 : ConnState :=
  { match_id := some 3, expected_seq := 0, match_secret := some 11 }

def env8 : Envelope :=
  { match_id := 3, seq := 0, payload := GameMessage.TakeShot p11,
    auth_token := some 14 }

/-! ## Helper lemmas -/

theorem getD_set_ne {α : Type} (i : Nat) :
    ∀ (l : List α) (j : Nat) (v d : α), j ≠ i →
      (l.set i v).getD j d = l.getD j d := by
  induction i with
  | zero =>
    intro l j v d h
    cases l with
    | nil => rfl
    | cons a t =>
      cases j with
      | zero => exact absurd rfl h
      | succ j => rfl
  | succ i ih =>
    intro l j v d h
    cases l with
    | nil => rfl
    | cons a t =>
      cases j with
      | zero => rfl
      | succ j => exact ih t j v d (fun hj => h (by rw [hj]))

theorem getD_set_self {α : Type} (i : Nat) :
    ∀ (l : List α) (v d : α),
      (l.set i v).getD i d = if i < l.length then v else d := by
  induction i with
  | zero =>
    intro l v d
    cases l with
    | nil => rfl
    | cons a t => simp [List.set, List.getD]
  | succ i ih =>
    intro l v d
    cases l with
    | nil => rfl
    | cons a t => simpa [List.set, List.getD] using ih t v d

theorem getD_of_length_le {α : Type} (i : Nat) :
    ∀ (l : List α) (d : α), l.length ≤ i → l.getD i d = d := by
  induction i with
  | zero =>
    intro l d h
    cases l with
    | nil => rfl
    | cons a t => simp at h
  | succ i ih =>
    intro l d h
    cases l with
    | nil => rfl
    | cons a t => exact ih t d (by simpa using h)

/-- A `gridSet` at `(x, y)` leaves every other cell unchanged. -/
theorem gridGet_gridSet_ne (g : List (List CellState)) (x y x' y' : Nat)
    (c : CellState) (h : x' ≠ x ∨ y' ≠ y) :
    gridGet (gridSet g x y c) x' y' = gridGet g x' y' := by
  unfold gridGet gridSet
  rcases eq_or_ne y' y with rfl | hy
  · have hx : x' ≠ x := h.resolve_right (fun hc => hc rfl)
    rw [getD_set_self]
    split
    · rw [getD_set_ne _ _ _ _ _ hx]
    · rename_i hlen
      rw [getD_of_length_le y' g [] (Nat.le_of_not_lt hlen)]
  · rw [getD_set_ne _ _ _ _ _ hy]

/-- `check_hit` never changes the ship's identity fields. -/
theorem check_hit_fields (s : Ship) (p : Position) :
    (s.check_hit p).2.ship_type = s.ship_type ∧
    (s.check_hit p).2.position = s.position ∧
    (s.check_hit p).2.direction = s.direction := by
  obtain ⟨ty, pos, dir, hits⟩ := s
  cases dir <;> simp only [Ship.check_hit] <;> split_ifs <;>
    exact ⟨rfl, rfl, rfl⟩

/-- When `check_hit` misses, the ship is returned unchanged. -/
theorem check_hit_false (s : Ship) (p : Position)
    (h : (s.check_hit p).1 = false) : (s.check_hit p).2 = s := by
  obtain ⟨ty, pos, dir, hits⟩ := s
  cases dir <;> simp only [Ship.check_hit] at h ⊢ <;>
    split_ifs at h ⊢ <;> simp_all

/-- When `check_hit` fires, the updated ship is the input with one hit bit
or-ed in. -/
theorem check_hit_true (s : Ship) (p : Position)
    (h : (s.check_hit p).1 = true) :
    ∃ k, (s.check_hit p).2 = { s with hits := s.hits ||| (1 <<< k) } := by
  obtain ⟨ty, pos, dir, hits⟩ := s
  cases dir <;> simp only [Ship.check_hit] at h ⊢ <;>
    split_ifs at h ⊢ <;> exact ⟨_, rfl⟩

/-- `scanShips` misses exactly when every ship's `check_hit` misses. -/
theorem scanShips_none_iff (shot : Position) :
    ∀ ships : List Ship,
      scanShips ships shot = none ↔ ∀ sh ∈ ships, (sh.check_hit shot).1 = false := by
  intro ships
  induction ships with
  | nil => simp [scanShips]
  | cons sh rest ih =>
    by_cases hh : (sh.check_hit shot).1
    · simp [scanShips, hh]
    · cases hrec : scanShips rest shot with
      | none =>
        simp only [scanShips, hh, if_neg, Bool.false_eq_true, if_false, hrec]
        simp only [hrec, true_iff] at ih
        constructor
        · intro _ x hx
          rcases List.mem_cons.mp hx with rfl | hx'
          · exact Bool.eq_false_iff.mpr hh
          · exact ih x hx'
        · intro _
          trivial
      | some o =>
        obtain ⟨rest', r⟩ := o
        simp only [scanShips, hh, Bool.false_eq_true, if_false, hrec]
        constructor
        · intro hcontra; exact absurd hcontra (by simp)
        · intro hall
          have : scanShips rest shot = none :=
            (ih.mpr (fun x hx => hall x (List.mem_cons_of_mem _ hx)))
          rw [this] at hrec; exact absurd hrec (by simp)

/-- Inversion for a successful `scanShips`: the ship list splits at the
first ship whose `check_hit` fires. -/
theorem scanShips_some_inv (shot : Position) :
    ∀ (ships : List Ship) (out : List Ship × HitType),
      scanShips ships shot = some out →
      ∃ l₁ sh l₂, ships = l₁ ++ sh :: l₂ ∧
        (∀ x ∈ l₁, (x.check_hit shot).1 = false) ∧
        (sh.check_hit shot).1 = true ∧
        out = (l₁ ++ (sh.check_hit shot).2 :: l₂,
          if (sh.check_hit shot).2.is_sunk then
            HitType.Sunk (sh.check_hit shot).2.ship_type
          else HitType.Hit) := by
  intro ships
  induction ships with
  | nil => intro out h; exact absurd h (by simp [scanShips])
  | cons sh rest ih =>
    intro out h
    by_cases hh : (sh.check_hit shot).1
    · simp only [scanShips, hh, if_true, Option.some.injEq] at h
      exact ⟨[], sh, rest, rfl, by simp, hh, h.symm⟩
    · simp only [scanShips, hh, Bool.false_eq_true, if_false] at h
      cases hrec : scanShips rest shot with
      | none => rw [hrec] at h; exact absurd h (by simp)
      | some o =>
        obtain ⟨rest', r⟩ := o
        rw [hrec] at h
        simp only [Option.some.injEq] at h
        obtain ⟨l₁, shp, l₂, hsplit, hmiss, hhit, hout⟩ := ih (rest', r) hrec
        simp only [Prod.mk.injEq] at hout
        refine ⟨sh :: l₁, shp, l₂, by simp [hsplit], ?_, hhit, ?_⟩
        · intro x hx
          rcases List.mem_cons.mp hx with rfl | hx'
          · exact Bool.eq_false_iff.mpr hh
          · exact hmiss x hx'
        · rw [← h]
          simp [hout.1, hout.2]

/-- A successful scan computed from an explicit split of the ship list. -/
theorem scanShips_append (shot : Position) :
    ∀ (l₁ : List Ship) (sh : Ship) (l₂ : List Ship),
      (∀ x ∈ l₁, (x.check_hit shot).1 = false) →
      (sh.check_hit shot).1 = true →
      scanShips (l₁ ++ sh :: l₂) shot =
        some (l₁ ++ (sh.check_hit shot).2 :: l₂,
          if (sh.check_hit shot).2.is_sunk then
            HitType.Sunk (sh.check_hit shot).2.ship_type
          else HitType.Hit) := by
  intro l₁
  induction l₁ with
  | nil => intro sh l₂ _ hhit; simp [scanShips, hhit]
  | cons a t ih =>
    intro sh l₂ hmiss hhit
    have ha : (a.check_hit shot).1 = false := hmiss a (List.mem_cons_self a t)
    have ht : ∀ x ∈ t, (x.check_hit shot).1 = false :=
      fun x hx => hmiss x (List.mem_cons_of_mem _ hx)
    simp [scanShips, ha, ih sh l₂ ht hhit]

/-- When `apply_shot` returns `None`, the state is untouched. -/
theorem apply_shot_none_frame (s : GameState) (p : Position)
    (h : (s.apply_shot p).1 = none) : (s.apply_shot p).2 = s := by
  unfold GameState.apply_shot at h ⊢
  split_ifs at h ⊢ <;> try rfl
  rename_i hb he
  cases hscan : scanShips s.ships p with
  | none => rw [hscan] at h; exact absurd h (by simp)
  | some o => obtain ⟨a, b⟩ := o; rw [hscan] at h; exact absurd h (by simp)

theorem guestRounds_length (hash : GameState → Digest) :
    ∀ (shots : List Position) (st : GameState),
      (guestRounds hash st shots).length = shots.length := by
  intro shots
  induction shots with
  | nil => intro st; rfl
  | cons p rest ih => intro st; simp [guestRounds, ih]

theorem runShots_take_succ :
    ∀ (shots : List Position) (st : GameState) (i : Nat) (hi : i < shots.length),
      runShots st (shots.take (i + 1)) =
        ((runShots st (shots.take i)).apply_shot (shots.get ⟨i, hi⟩)).2 := by
  intro shots
  induction shots with
  | nil => intro st i hi; exact absurd hi (by simp)
  | cons p rest ih =>
    intro st i hi
    cases i with
    | zero => simp [runShots]
    | succ i =>
      simpa [runShots] using ih (st.apply_shot p).2 i (by simpa using hi)

theorem guestRounds_get (hash : GameState → Digest) :
    ∀ (shots : List Position) (st : GameState) (i : Nat) (hi : i < shots.length),
      (guestRounds hash st shots).get? i =
        some (guestStep hash (runShots st (shots.take i)) (shots.get ⟨i, hi⟩)).1 := by
  intro shots
  induction shots with
  | nil => intro st i hi; exact absurd hi (by simp)
  | cons p rest ih =>
    intro st i hi
    cases i with
    | zero => simp [guestRounds, runShots]
    | succ i =>
      have h := ih (st.apply_shot p).2 i (by simpa using hi)
      simpa [guestRounds, runShots] using h

/-! ## Claim theorems -/

/-- C5.  For every `GameState` `s` and position `pos`, `s.apply_shot pos`
returns `None` iff `pos` is out of bounds (`x ≥ 10` or `y ≥ 10`) or the
grid cell at `pos` is not `Empty`; for an in-bounds `pos` whose cell is
`Empty` it returns `Some` of a `HitType`. -/
theorem C5_apply_shot_none_iff (s : GameState) (pos : Position) :
    ((s.apply_shot pos).1 = none ↔
      (BOARD_SIZE ≤ pos.x ∨ BOARD_SIZE ≤ pos.y) ∨
        gridGet s.grid pos.x pos.y ≠ CellState.Empty) ∧
    (pos.in_bounds = true → gridGet s.grid pos.x pos.y = CellState.Empty →
      ∃ h, (s.apply_shot pos).1 = some h) := by
  have hbnd : pos.in_bounds = true ↔ pos.x < BOARD_SIZE ∧ pos.y < BOARD_SIZE := by
    simp [Position.in_bounds]
  unfold GameState.apply_shot
  by_cases hb : pos.in_bounds
  · by_cases he : gridGet s.grid pos.x pos.y = CellState.Empty
    · rw [if_pos hb, if_pos he]
      cases hscan : scanShips s.ships pos with
      | none =>
        refine ⟨?_, fun _ _ => ⟨HitType.Miss, rfl⟩⟩
        simp only [hbnd] at hb
        simp [he, Nat.not_le.mpr hb.1, Nat.not_le.mpr hb.2]
      | some o =>
        obtain ⟨ships', r⟩ := o
        refine ⟨?_, fun _ _ => ⟨r, rfl⟩⟩
        simp only [hbnd] at hb
        simp [he, Nat.not_le.mpr hb.1, Nat.not_le.mpr hb.2]
    · rw [if_pos hb, if_neg he]
      exact ⟨by simp [he], fun _ hee => absurd hee he⟩
  · rw [if_neg hb]
    refine ⟨?_, fun hbb _ => absurd hbb hb⟩
    have : ¬(pos.x < BOARD_SIZE ∧ pos.y < BOARD_SIZE) := fun hc => hb (hbnd.mpr hc)
    rcases Nat.lt_or_ge pos.x BOARD_SIZE with hx | hx
    · have hy : BOARD_SIZE ≤ pos.y := by
        rcases Nat.lt_or_ge pos.y BOARD_SIZE with hy | hy
        · exact absurd ⟨hx, hy⟩ this
        · exact hy
      simp [hy]
    · simp [hx]

/-- C5 witness: a fresh board accepts a shot at the in-bounds empty cell
`(1, 1)`. -/
theorem C5_witness : ∃ h, (state0.apply_shot p11).1 = some h :=
  (C5_apply_shot_none_iff state0 p11).2 (by decide) (by decide)

/-- C6.  Under an in-bounds, not-yet-shot position, `apply_shot` returns
`Sunk t` iff the first ship whose `check_hit` fires has, after its hit bit
is set, its full mask set (`is_sunk`) and is of type `t`; if that ship is
not sunk after the bit is set, the result is `Hit`. -/
theorem C6_sunk_iff (s : GameState) (pos : Position) (t : ShipType)
    (hb : pos.in_bounds = true)
    (he : gridGet s.grid pos.x pos.y = CellState.Empty) :
    ((s.apply_shot pos).1 = some (HitType.Sunk t) ↔
      ∃ l₁ sh l₂, s.ships = l₁ ++ sh :: l₂ ∧
        (∀ x ∈ l₁, (x.check_hit pos).1 = false) ∧
        (sh.check_hit pos).1 = true ∧
        (sh.check_hit pos).2.ship_type = t ∧
        (sh.check_hit pos).2.is_sunk = true) ∧
    (∀ l₁ sh l₂, s.ships = l₁ ++ sh :: l₂ →
      (∀ x ∈ l₁, (x.check_hit pos).1 = false) →
      (sh.check_hit pos).1 = true →
      (sh.check_hit pos).2.is_sunk = false →
      (s.apply_shot pos).1 = some HitType.Hit) := by
  unfold GameState.apply_shot
  rw [if_pos hb, if_pos he]
  constructor
  · cases hscan : scanShips s.ships pos with
    | none =>
      constructor
      · intro hcontra; exact absurd hcontra (by simp)
      · rintro ⟨l₁, sh, l₂, hsplit, _, hhit, _, _⟩
        have hall := (scanShips_none_iff pos s.ships).mp hscan
        have : (sh.check_hit pos).1 = false :=
          hall sh (by rw [hsplit]; exact List.mem_append_right _ (List.mem_cons_self _ _))
        rw [this] at hhit; exact absurd hhit (by simp)
    | some o =>
      obtain ⟨ships', r⟩ := o
      obtain ⟨l₁, sh, l₂, hsplit, hmiss, hhit, hout⟩ :=
        scanShips_some_inv pos s.ships (ships', r) hscan
      simp only [Prod.mk.injEq] at hout
      constructor
      · intro hr
        have hr2 : some r = some (HitType.Sunk t) := hr
        injection hr2 with hr'
        rw [hout.2] at hr'
        by_cases hs : (sh.check_hit pos).2.is_sunk
        · rw [if_pos hs] at hr'
          injection hr' with hty
          exact ⟨l₁, sh, l₂, hsplit, hmiss, hhit, hty, hs⟩
        · rw [if_neg hs] at hr'
          exact absurd hr' (by simp)
      · rintro ⟨m₁, msh, m₂, msplit, mmiss, mhit, mty, msunk⟩
        have hval := scanShips_append pos m₁ msh m₂ mmiss mhit
        rw [← msplit, hscan] at hval
        simp only [Option.some.injEq, Prod.mk.injEq] at hval
        show some r = some (HitType.Sunk t)
        rw [hval.2, if_pos msunk, mty]
  · intro l₁ sh l₂ hsplit hmiss hhit hnot
    have hval := scanShips_append pos l₁ sh l₂ hmiss hhit
    rw [← hsplit] at hval
    rw [hval, if_neg (by rw [hnot]; exact Bool.false_ne_true)]

/-- C6 witness: the first hit on a two-cell destroyer reports `Hit` —
the ship's mask is not yet full. -/
theorem C6_witness : (destroyerState.apply_shot ⟨0, 0⟩).1 = some HitType.Hit :=
  (C6_sunk_iff destroyerState ⟨0, 0⟩ ShipType.Destroyer (by decide) (by decide)).2
    [] destroyer0 [] rfl (by intro x hx; exact absurd hx (List.not_mem_nil x))
    (by decide) (by decide)

/-- C10.  `apply_shot` changes at most the one grid cell at `pos` and at
most one ship's `hits` (or-ing in one bit), preserving the pepper and each
ship's type, position and direction as well as the ship order; a `None`
result leaves the entire state unchanged. -/
theorem C10_apply_shot_frame (s : GameState) (pos : Position) :
    (s.apply_shot pos).2.pepper = s.pepper ∧
    ((s.apply_shot pos).2.ships = s.ships ∨
      ∃ l₁ a b l₂, s.ships = l₁ ++ a :: l₂ ∧
        (s.apply_shot pos).2.ships = l₁ ++ b :: l₂ ∧
        b.ship_type = a.ship_type ∧ b.position = a.position ∧
        b.direction = a.direction ∧ ∃ k, b.hits = a.hits ||| (1 <<< k)) ∧
    (∀ q : Position, q ≠ pos →
      gridGet (s.apply_shot pos).2.grid q.x q.y = gridGet s.grid q.x q.y) ∧
    ((s.apply_shot pos).1 = none → (s.apply_shot pos).2 = s) := by
  have hq : ∀ q : Position, q ≠ pos → q.x ≠ pos.x ∨ q.y ≠ pos.y := by
    intro q hne
    by_cases hx : q.x = pos.x
    · right
      intro hy
      exact hne (by cases q; cases pos; simp_all)
    · exact Or.inl hx
  unfold GameState.apply_shot
  by_cases hb : pos.in_bounds
  · by_cases he : gridGet s.grid pos.x pos.y = CellState.Empty
    · rw [if_pos hb, if_pos he]
      cases hscan : scanShips s.ships pos with
      | none =>
        refine ⟨rfl, Or.inl rfl, ?_, ?_⟩
        · intro q hne
          exact gridGet_gridSet_ne s.grid pos.x pos.y q.x q.y _ (hq q hne)
        · intro hcontra; exact absurd hcontra (by simp)
      | some o =>
        obtain ⟨ships', r⟩ := o
        obtain ⟨l₁, sh, l₂, hsplit, hmiss, hhit, hout⟩ :=
          scanShips_some_inv pos s.ships (ships', r) hscan
        simp only [Prod.mk.injEq] at hout
        refine ⟨rfl, Or.inr ?_, ?_, ?_⟩
        · obtain ⟨k, hk⟩ := check_hit_true sh pos hhit
          obtain ⟨hty, hpos, hdir⟩ := check_hit_fields sh pos
          exact ⟨l₁, sh, (sh.check_hit pos).2, l₂, hsplit, by simp [hout.1],
            hty, hpos, hdir, k, by rw [hk]⟩
        · intro q hne
          exact gridGet_gridSet_ne s.grid pos.x pos.y q.x q.y _ (hq q hne)
        · intro hcontra; exact absurd hcontra (by simp)
    · rw [if_pos hb, if_neg he]
      exact ⟨rfl, Or.inl rfl, fun _ _ => rfl, fun _ => rfl⟩
  · rw [if_neg hb]
    exact ⟨rfl, Or.inl rfl, fun _ _ => rfl, fun _ => rfl⟩

/-- C10 witness: an out-of-bounds shot returns the board unchanged. -/
theorem C10_witness : (state0.apply_shot pBig).2 = state0 :=
  (C10_apply_shot_frame state0 pBig).2.2.2 (by decide)

/-- C4.  The guest proof program: a failed `check` aborts with no usable
output; otherwise the journal holds the initial digest followed by exactly
one `RoundCommit` per shot in input order, each binding the digest before
the shot (`old_state`) and after it (`new_state`); a shot that is out of
bounds or hits an already-shot cell records `Miss`, does not mutate the
state, and has `new_state = old_state`. -/
theorem C4_guest_journal (hash : GameState → Digest) (initial : GameState)
    (shots : List Position) :
    (initial.check = false → guest_main hash initial shots = none) ∧
    (initial.check = true →
      guest_main hash initial shots =
        some (hash initial, guestRounds hash initial shots) ∧
      (guestRounds hash initial shots).length = shots.length ∧
      ∀ i (hi : i < shots.length),
        ∃ rc, (guestRounds hash initial shots).get? i = some rc ∧
          rc.shot = shots.get ⟨i, hi⟩ ∧
          rc.old_state = hash (runShots initial (shots.take i)) ∧
          rc.new_state = hash (runShots initial (shots.take (i + 1))) ∧
          (((runShots initial (shots.take i)).apply_shot (shots.get ⟨i, hi⟩)).1 = none →
            rc.hit = HitType.Miss ∧
            runShots initial (shots.take (i + 1)) = runShots initial (shots.take i) ∧
            rc.new_state = rc.old_state)) := by
  constructor
  · intro hchk; simp [guest_main, hchk]
  · intro hchk
    refine ⟨by simp [guest_main, hchk], guestRounds_length hash shots initial, ?_⟩
    intro i hi
    refine ⟨(guestStep hash (runShots initial (shots.take i)) (shots.get ⟨i, hi⟩)).1,
      guestRounds_get hash shots initial i hi, rfl, rfl, ?_, ?_⟩
    · rw [runShots_take_succ shots initial i hi]; rfl
    · intro hnone
      refine ⟨?_, ?_, ?_⟩
      · show ((runShots initial (shots.take i)).apply_shot
            (shots.get ⟨i, hi⟩)).1.getD HitType.Miss = HitType.Miss
        rw [hnone]
        rfl
      · rw [runShots_take_succ shots initial i hi, apply_shot_none_frame _ _ hnone]
      · show hash ((runShots initial (shots.take i)).apply_shot (shots.get ⟨i, hi⟩)).2 =
          hash (runShots initial (shots.take i))
        rw [apply_shot_none_frame _ _ hnone]

/-- C4 witness: the well-formed board passes `check` and produces the
journal head and per-shot commits. -/
theorem C4_witness :
    guest_main hash0 validState [p11] =
      some (hash0 validState, guestRounds hash0 validState [p11]) :=
  ((C4_guest_journal hash0 validState [p11]).2 (by decide)).1

/-- C1 counterexample: `verify_remote_round_proof` accepts a two-commit
list whose LAST commit has the wrong shot, the wrong `old_state`, and a
`new_state` different from the digest of `server_state` with the shot
re-applied (the clone would even accept the shot); the claimed last-commit
checks and the re-application check are not performed. -/
theorem C1_counterexample :
    verify_remote_round_proof hash0 state0 [rcA, rcB] p11 = Except.ok [rcA, rcB] ∧
    [rcA, rcB].getLast? = some rcB ∧
    rcB.shot ≠ p11 ∧
    rcB.old_state ≠ hash0 state0 ∧
    hash0 (state0.apply_shot p11).2 ≠ rcB.new_state ∧
    (state0.apply_shot p11).1 ≠ none :=
  ⟨rfl, rfl, by decide, by decide, by decide, by decide⟩

/-- C1 (amended).  `verify_remote_round_proof` accepts iff the extracted
commit list is non-empty with its FIRST commit's `old_state` equal to
`server_state.commit()` and SOME commit's shot equal to the expected shot,
returning the full list; it re-applies nothing and never inspects
`new_state`. -/
theorem C1_verify_checks (hash : GameState → Digest) (server_state : GameState)
    (commits : List RoundCommit) (shot : Position) :
    ((∃ out, verify_remote_round_proof hash server_state commits shot = Except.ok out) ↔
      (∃ c0 rest, commits = c0 :: rest ∧ c0.old_state = hash server_state) ∧
      ∃ c ∈ commits, c.shot = shot) ∧
    (∀ out, verify_remote_round_proof hash server_state commits shot = Except.ok out →
      out = commits) := by
  cases commits with
  | nil =>
    constructor
    · constructor
      · rintro ⟨out, hout⟩
        exact absurd hout (by simp [verify_remote_round_proof])
      · rintro ⟨⟨c0, rest, hsplit, _⟩, _⟩
        exact absurd hsplit (by simp)
    · intro out hout
      exact absurd hout (by simp [verify_remote_round_proof])
  | cons c0 rest =>
    by_cases hold : c0.old_state = hash server_state
    · by_cases hshot : (c0 :: rest).any (fun c => c.shot == shot)
      · have hok : verify_remote_round_proof hash server_state (c0 :: rest) shot =
            Except.ok (c0 :: rest) := by
          simp [verify_remote_round_proof, hold, hshot]
        constructor
        · constructor
          · intro _
            refine ⟨⟨c0, rest, rfl, hold⟩, ?_⟩
            obtain ⟨c, hc, hcs⟩ := List.any_eq_true.mp hshot
            exact ⟨c, hc, of_decide_eq_true hcs⟩
          · intro _
            exact ⟨_, hok⟩
        · intro out hout
          rw [hok] at hout
          injection hout with h
          exact h.symm
      · have herr : verify_remote_round_proof hash server_state (c0 :: rest) shot =
            Except.error "receipt does not contain a commit for the requested shot" := by
          simp [verify_remote_round_proof, hold, hshot]
        constructor
        · constructor
          · rintro ⟨out, hout⟩
            rw [herr] at hout
            exact absurd hout (by simp)
          · rintro ⟨_, c, hc, hcshot⟩
            refine absurd ?_ hshot
            rw [List.any_eq_true]
            exact ⟨c, hc, decide_eq_true hcshot⟩
        · intro out hout
          rw [herr] at hout
          exact absurd hout (by simp)
    · have herr : verify_remote_round_proof hash server_state (c0 :: rest) shot =
          Except.error "mismatched base state in provided proof" := by
        simp [verify_remote_round_proof, hold]
      constructor
      · constructor
        · rintro ⟨out, hout⟩
          rw [herr] at hout
          exact absurd hout (by simp)
        · rintro ⟨⟨c0', rest', hsplit, hold'⟩, _⟩
          injection hsplit with h1 _
          rw [← h1] at hold'
          exact absurd hold' hold
      · intro out hout
        rw [herr] at hout
        exact absurd hout (by simp)

/-- C1 witness: a single matching commit with the right base digest is
accepted. -/
theorem C1_witness :
    ∃ out, verify_remote_round_proof hash0 state0 [rcA] p11 = Except.ok out :=
  (C1_verify_checks hash0 state0 [rcA] p11).1.mpr
    ⟨⟨rcA, [], rfl, rfl⟩, rcA, by simp, rfl⟩

/-- C2 counterexample: the `game.rs` shooter accepts a `ShotResult` whose
commit's `old_state` (7) differs from the recorded `opponent_commit`
(5), and adopts its `new_state` — no `old_state` comparison happens in the
loop. -/
theorem C2_counterexample :
    coordC2.opponent_commit = some 5 ∧
    rcBadOld.old_state = 7 ∧
    shooterHandleShotResult coordC2 p11 [rcBadOld] = some coordC2After ∧
    coordC2After.opponent_commit = some 9 :=
  ⟨rfl, rfl, by decide, rfl⟩

/-- C2 (amended).  After the `game.rs` shooter accepts a `ShotResult` the
recorded `opponent_commit` equals the last commit's `new_state`, but the
loop never compares `old_state` with the previous `opponent_commit`; only
the helper `verify_shot_result_for_shooter` (not called by the loop)
enforces `rc.old_state = expected_old` (and `rc.shot = shot`) before
returning a commit. -/
theorem C2_shooter_commit_adoption :
    (∀ (st : CoordState) (position : Position) (commits : List RoundCommit)
      (rc : RoundCommit) (st' : CoordState), commits.getLast? = some rc →
      shooterHandleShotResult st position commits = some st' →
      st'.opponent_commit = some rc.new_state) ∧
    (∀ (commits : List RoundCommit) (expected_old : Digest) (shot : Position)
      (rc : RoundCommit),
      verify_shot_result_for_shooter commits expected_old shot = Except.ok rc →
      rc.old_state = expected_old ∧ rc.shot = shot) := by
  constructor
  · intro st position commits rc st' hlast h
    unfold shooterHandleShotResult at h
    rw [hlast] at h
    injection h with h
    rw [← h]
  · intro commits expected_old shot rc h
    unfold verify_shot_result_for_shooter at h
    split at h
    · exact absurd h (by simp)
    · split at h
      · exact absurd h (by simp)
      · rename_i c hfind
        split at h
        · exact absurd h (by simp)
        · rename_i holdc
          injection h with h
          have hshot := List.find?_some hfind
          rw [← h]
          exact ⟨not_not.mp holdc, of_decide_eq_true hshot⟩

/-- C2 witness: the shooter adopts `rcGood.new_state`, and the helper
accepts `rcGood` against expected digest 5 and shot `p11`. -/
theorem C2_witness :
    coord0AfterHit.opponent_commit = some rcGood.new_state ∧
    rcGood.old_state = 5 ∧ rcGood.shot = p11 :=
  ⟨C2_shooter_commit_adoption.1 coord0 p11 [rcGood] rcGood coord0AfterHit rfl (by decide),
   C2_shooter_commit_adoption.2 [rcGood] 5 p11 rcGood rfl⟩

/-- C3 counterexample: the legacy (`game_coordinator.rs`) shooter's
`ShotResult` handling applies the shot to its own `local_state`, which
changes. -/
theorem C3_counterexample :
    legacyShooterHandleShotResult coord0 p11 [rcMiss] = some coord0Legacy ∧
    coord0Legacy.local_state ≠ coord0.local_state :=
  ⟨by decide, by decide⟩

/-- C3 (amended).  In the consolidated loop (`game.rs`) the shooter's
`ShotResult` processing never mutates `local_state`; the legacy
`game_coordinator.rs` loop instead applies the shot to `local_state`. -/
theorem C3_shooter_local_state_frame (st : CoordState) (position : Position)
    (commits : List RoundCommit) (st' : CoordState)
    (h : shooterHandleShotResult st position commits = some st') :
    st'.local_state = st.local_state := by
  unfold shooterHandleShotResult at h
  cases hlast : commits.getLast? with
  | none =>
    rw [hlast] at h
    exact absurd h (by simp)
  | some rc =>
    rw [hlast] at h
    injection h with h
    rw [← h]

/-- C3 witness: concrete run of the `game.rs` shooter leaves `local_state`
untouched. -/
theorem C3_witness : coord0After.local_state = coord0.local_state :=
  C3_shooter_local_state_frame coord0 p11 [rcMiss] coord0After (by decide)

/-- C7 counterexample: the legacy (`game_coordinator.rs`) defender, on a
`TakeShot` with the prover unavailable, sends `Error` and then `bail!`s —
the error propagates out of `play_game` and the session terminates instead
of remaining in the playing loop. -/
theorem C7_counterexample :
    legacyDefenderHandleTakeShot coord0 p11 none =
      Except.error "prover unavailable" := rfl

/-- C7 (amended).  In the consolidated loop (`game.rs`) the defender
replies `Error{message}` when the prover cannot run and continues the
session with its entire state — including the turn flag, so the turn stays
with the remote peer — unchanged; the legacy `game_coordinator.rs` loop
instead aborts the session after sending `Error`. -/
theorem C7_defender_prover_unavailable (st : CoordState) (position : Position) :
    defenderHandleTakeShot st position none =
      some (st, GameMessage.Error "prover unavailable") := rfl

/-- C9.  Turn transfer in `game.rs`: for the shooter, `Miss` and `Sunk`
hand the turn to the remote peer and `Hit` keeps it local; for the
defender, `Miss` and `Sunk` make the turn local and `Hit` keeps it
remote. -/
theorem C9_turn_transfer (st : CoordState) (position : Position)
    (commits : List RoundCommit) (rc : RoundCommit)
    (hlast : commits.getLast? = some rc) :
    (∀ st', shooterHandleShotResult st position commits = some st' →
      (st'.local_turn = true ↔ rc.hit = HitType.Hit)) ∧
    (∀ out, defenderHandleTakeShot st position (some commits) = some out →
      (out.1.local_turn = true ↔ rc.hit ≠ HitType.Hit)) := by
  constructor
  · intro st' h
    unfold shooterHandleShotResult at h
    rw [hlast] at h
    injection h with h
    rw [← h]
    cases rc.hit <;> simp
  · intro out h
    unfold defenderHandleTakeShot at h
    dsimp only at h
    rw [hlast] at h
    injection h with h
    rw [← h]
    cases rc.hit <;> simp

/-- C9 witness: a verified `Hit` keeps the shooter's turn. -/
theorem C9_witness :
    coord0AfterHit.local_turn = true ↔ rcGood.hit = HitType.Hit :=
  (C9_turn_transfer coord0 p11 [rcGood] rcGood rfl).1 coord0AfterHit (by decide)

theorem receive_enveloped_secret (hmac : Nat → Envelope → Nat) (c : ConnState)
    (env : Envelope) (k : Nat) (hk : c.match_secret = some k) :
    receive_enveloped hmac c env =
      if env.auth_token = some (hmac k { env with auth_token := none }) then
        receiveChecks c env
      else Except.error "auth token missing or invalid" := by
  unfold receive_enveloped
  rw [hk]

theorem receiveChecks_none (c : ConnState) (env : Envelope)
    (hcm : c.match_id = none) :
    receiveChecks c env =
      if env.seq = c.expected_seq then
        Except.ok (⟨some env.match_id, (c.expected_seq + 1) % U64, c.match_secret⟩, env)
      else Except.error "unexpected sequence number" := by
  unfold receiveChecks
  rw [hcm]
  by_cases hseq : env.seq = c.expected_seq <;> simp [hcm, hseq]

theorem receiveChecks_some (c : ConnState) (env : Envelope) (m : Nat)
    (hcm : c.match_id = some m) :
    receiveChecks c env =
      if env.match_id = m then
        (if env.seq = c.expected_seq then
          Except.ok (⟨some m, (c.expected_seq + 1) % U64, c.match_secret⟩, env)
        else Except.error "unexpected sequence number")
      else Except.error "mismatched match_id" := by
  unfold receiveChecks
  rw [hcm]
  by_cases hmid : env.match_id = m <;>
    by_cases hseq : env.seq = c.expected_seq <;> simp [hcm, hmid, hseq]

/-- C8.  With a `match_secret` held, `receive_enveloped` accepts exactly
when the `auth_token` equals the keyed HMAC of the envelope with
`auth_token` cleared, the `match_id` equals the adopted one (the first one
seen is adopted when none is set) and `seq` equals `expected_seq`; on
acceptance `expected_seq` advances by one (wrapping at `2^64`), and an
envelope whose token differs from the correct HMAC in any bit is
rejected. -/
theorem C8_receive_enveloped_auth (hmac : Nat → Envelope → Nat) (c : ConnState)
    (env : Envelope) (k : Nat) (hk : c.match_secret = some k) :
    ((∃ out, receive_enveloped hmac c env = Except.ok out) ↔
      (env.auth_token = some (hmac k { env with auth_token := none }) ∧
       (∀ m, c.match_id = some m → env.match_id = m) ∧
       env.seq = c.expected_seq)) ∧
    (∀ c' e', receive_enveloped hmac c env = Except.ok (c', e') →
      e' = env ∧
      c'.expected_seq = (c.expected_seq + 1) % U64 ∧
      (c.expected_seq + 1 < U64 → c'.expected_seq = c.expected_seq + 1) ∧
      (c.match_id = none → c'.match_id = some env.match_id)) ∧
    (∀ t, env.auth_token = some t →
      t ≠ hmac k { env with auth_token := none } →
      ∃ msg, receive_enveloped hmac c env = Except.error msg) := by
  rw [receive_enveloped_secret hmac c env k hk]
  by_cases hauth : env.auth_token = some (hmac k { env with auth_token := none })
  · rw [if_pos hauth]
    have hrej : ∀ t, env.auth_token = some t →
        t ≠ hmac k { env with auth_token := none } → False := by
      intro t ht hne
      rw [hauth] at ht
      injection ht with ht
      exact absurd ht.symm hne
    cases hcm : c.match_id with
    | none =>
      rw [receiveChecks_none c env hcm]
      by_cases hseq : env.seq = c.expected_seq
      · rw [if_pos hseq]
        refine ⟨⟨fun _ => ⟨hauth, ?_, hseq⟩, fun _ => ⟨_, rfl⟩⟩, ?_, ?_⟩
        · intro _ hm
          exact Option.noConfusion hm
        · intro c' e' hce
          injection hce with hce
          injection hce with h1 h2
          refine ⟨h2.symm, by rw [← h1], ?_, ?_⟩
          · intro hlt
            rw [← h1]
            exact Nat.mod_eq_of_lt hlt
          · intro _
            rw [← h1]
        · intro t ht hne
          exact absurd (hrej t ht hne) not_false
      · rw [if_neg hseq]
        refine ⟨⟨?_, ?_⟩, ?_, ?_⟩
        · rintro ⟨out, hout⟩
          exact absurd hout (by simp)
        · rintro ⟨_, _, hs⟩
          exact absurd hs hseq
        · intro c' e' hce
          exact absurd hce (by simp)
        · intro t ht hne
          exact absurd (hrej t ht hne) not_false
    | some m =>
      rw [receiveChecks_some c env m hcm]
      by_cases hmid : env.match_id = m
      · rw [if_pos hmid]
        by_cases hseq : env.seq = c.expected_seq
        · rw [if_pos hseq]
          refine ⟨⟨fun _ => ⟨hauth, ?_, hseq⟩, fun _ => ⟨_, rfl⟩⟩, ?_, ?_⟩
          · intro m' hm'
            injection hm' with h
            rw [← h]
            exact hmid
          · intro c' e' hce
            injection hce with hce
            injection hce with h1 h2
            refine ⟨h2.symm, by rw [← h1], ?_, ?_⟩
            · intro hlt
              rw [← h1]
              exact Nat.mod_eq_of_lt hlt
            · intro hn
              exact Option.noConfusion hn
          · intro t ht hne
            exact absurd (hrej t ht hne) not_false
        · rw [if_neg hseq]
          refine ⟨⟨?_, ?_⟩, ?_, ?_⟩
          · rintro ⟨out, hout⟩
            exact absurd hout (by simp)
          · rintro ⟨_, _, hs⟩
            exact absurd hs hseq
          · intro c' e' hce
            exact absurd hce (by simp)
          · intro t ht hne
            exact absurd (hrej t ht hne) not_false
      · rw [if_neg hmid]
        refine ⟨⟨?_, ?_⟩, ?_, ?_⟩
        · rintro ⟨out, hout⟩
          exact absurd hout (by simp)
        · rintro ⟨_, hmm, _⟩
          exact absurd (hmm m rfl) hmid
        · intro c' e' hce
          exact absurd hce (by simp)
        · intro t ht hne
          exact absurd (hrej t ht hne) not_false
  · rw [if_neg hauth]
    refine ⟨⟨?_, ?_⟩, ?_, ?_⟩
    · rintro ⟨out, hout⟩
      exact absurd hout (by simp)
    · rintro ⟨ha, _, _⟩
      exact absurd ha hauth
    · intro c' e' hce
      exact absurd hce (by simp)
    · intro t _ _
      exact ⟨_, rfl⟩

/-- C8 witness: a correctly tokenized, correctly sequenced envelope on the
adopted match id is accepted. -/
theorem C8_witness : ∃ out, receive_enveloped hmacC conn8 env8 = Except.ok out :=
  (C8_receive_enveloped_auth hmacC conn8 env8 11 rfl).1.mpr
    ⟨rfl, fun _ hm => Option.some.inj hm, rfl⟩

end Battleship
